import Mathlib

/-!
# Verification of the reflex-mui-datagrid server-side lazy grid

Shallow embedding of the parts of `reflex_mui_datagrid` that the claims
concern:

* the filter merge algorithm `merge_filter_model`
  (`src/reflex_mui_datagrid/lazyframe_grid.py`),
* the filter-model-to-query translation `_build_filter_expr` /
  `apply_filter_model` (`src/reflex_mui_datagrid/polars_utils.py`),
* the session controller's page refresh and scroll handler
  (`LazyFrameGridMixin` in `lazyframe_grid.py`),
* the preset-upload handler,
* Python name-resolution models for the `from ... import ...` statement of
  `lazyframe_grid.py` and for the keyword-argument binding of the call in
  `bio_lazyframe_to_datagrid` (`polars_bio_utils.py`).

Python dicts of the MUI filter protocol are modelled by structures whose
fields mirror the keys the source reads (`field`, `operator`, `value`,
`items`, `logicOperator`).  A missing `"field"` key and an empty-string
field are conflated ( the source guards both with `if not field` /
`if field is None`), and a missing `"operator"` key is conflated with `""`
(the source reads it as `item.get("operator", "")`; in
`_build_filter_expr` an absent operator and an operator matching no branch
both yield `None`).  A missing or JSON-null `"value"` is `Option.none`.
-/

namespace ReflexMuiDatagrid

/-- Scalar JSON value occurring inside a MUI filter item's `value`.
Python floats are outside the model: no claim involves non-integral
numeric filter values. -/
inductive PrimVal where
  | s (x : String)
  | i (x : Int)
  | b (x : Bool)
deriving DecidableEq, Repr

/-- JSON value of a filter item's `value` key.  List values (used by the
`isAnyOf` operator) hold scalars; nested lists never occur in the MUI
protocol and are outside the model. -/
inductive Val where
  | s (x : String)
  | i (x : Int)
  | b (x : Bool)
  | arr (xs : List PrimVal)
deriving DecidableEq, Repr

/-- Python `repr` of a scalar, as used by `str(list)` on list elements. -/
def pyReprPrim : PrimVal → String
  | .s x => "'" ++ x ++ "'"
  | .i n => toString n
  | .b true => "True"
  | .b false => "False"

/-- Python `str` of a scalar, as used by `[str(v) for v in value]` in
the `isAnyOf` branch. -/
def pyStrPrim : PrimVal → String
  | .s x => x
  | .i n => toString n
  | .b true => "True"
  | .b false => "False"

/-- Python `str(value)`, as applied by `_build_filter_expr` to filter
values (`str(value)` on scalars, `str`-of-list on lists). -/
def pyStr : Val → String
  | .s x => x
  | .i n => toString n
  | .b true => "True"
  | .b false => "False"
  | .arr xs => "[" ++ String.intercalate ", " (xs.map pyReprPrim) ++ "]"

/-- One MUI filter criterion `{field, operator, value}`. -/
structure FilterItem where
  field : String
  operator : String
  value : Option Val
deriving DecidableEq, Repr

/-- A MUI filter model `{items, logicOperator}`.  The Python empty dict
`{}` is represented as `⟨[], none⟩`: every consumer in the source reads
it through `get("items", [])` / `get("logicOperator", "and")`, so the
two are observationally identical. -/
structure FilterModel where
  items : List FilterItem
  logicOperator : Option String
deriving DecidableEq, Repr

/-- The empty filter model: the `{}` returned by `merge_filter_model`
when no filters remain. -/
def emptyFilterModel : FilterModel := ⟨[], none⟩

/-! ## merge_filter_model (lazyframe_grid.py, lines 1264-1334)

The per-field map `by_field` is a Python dict built by repeated
`by_field[field] = item`.  We model it as an association list with dict
update semantics: updating an existing key replaces its entry in place,
a new key is appended (Python dicts preserve insertion order, and
`dict.values()` is read at the end). -/

/-- `by_field[k] = v` on an ordered dict modelled as an association
list: replace in place if the key exists, else append. -/
def dictUpsert (m : List (String × FilterItem)) (k : String) (v : FilterItem) :
    List (String × FilterItem) :=
  if m.any (fun p => p.1 == k) then
    m.map (fun p => if p.1 == k then (k, v) else p)
  else
    m ++ [(k, v)]

/-- `by_field.get(k)` / `k in by_field`. -/
def dictFind (m : List (String × FilterItem)) (k : String) : Option FilterItem :=
  (m.find? (fun p => p.1 == k)).map Prod.snd

/-- The loop `for item in existing_items: field = item.get("field");
if field: by_field[field] = item`. -/
def buildByField (items : List FilterItem) : List (String × FilterItem) :=
  items.foldl
    (fun m item => if item.field = "" then m else dictUpsert m item.field item)
    []

/-- One iteration of the merge loop over `incoming_items`:

* no field → skip;
* item has a value (`value is not None`) or its operator is
  `isEmpty`/`isNotEmpty` → upsert;
* otherwise, if the field already has an accumulated filter and the
  incoming operator is truthy and differs, patch only the operator;
* otherwise leave the map unchanged. -/
def mergeStep (m : List (String × FilterItem)) (item : FilterItem) :
    List (String × FilterItem) :=
  if item.field = "" then m
  else if item.value.isSome ∨ item.operator = "isEmpty" ∨ item.operator = "isNotEmpty" then
    dictUpsert m item.field item
  else
    match dictFind m item.field with
    | some existing =>
        if item.operator ≠ "" ∧ item.operator ≠ existing.operator then
          dictUpsert m item.field { existing with operator := item.operator }
        else m
    | none => m

/-- `merge_filter_model(existing, incoming)` from `lazyframe_grid.py`. -/
def merge_filter_model (existing incoming : FilterModel) : FilterModel :=
  let logic := incoming.logicOperator.getD "and"
  if incoming.items = [] then emptyFilterModel
  else
    let byField := buildByField existing.items
    let finalMap := incoming.items.foldl mergeStep byField
    let mergedItems := finalMap.map Prod.snd
    if mergedItems = [] then emptyFilterModel
    else ⟨mergedItems, some logic⟩

/-! ## Filter translation (polars_utils.py)

The polars expression language is embedded deeply, with one constructor
per expression shape `_build_filter_expr` can build.  The
cast-to-string chain `_col_to_str_expr` (cast, list-join, struct
stringify) is folded into the `str*` atoms: they all denote predicates
on the stringified column. -/

/-- The polars data types the source dispatches on.  `structTy` field
types and `arrayTy` lengths are never inspected by the source and are
omitted. -/
inductive PlDType where
  | boolean
  | int64
  | float64
  | date
  | datetime
  | time
  | duration
  | string
  | categorical
  | enum
  | listTy
  | arrayTy
  | structTy
deriving DecidableEq, Repr

/-- `polars_dtype_to_grid_type` from `polars_utils.py`: Boolean →
boolean, numeric → number, Date → date, Datetime → dateTime, everything
else → string. -/
def polars_dtype_to_grid_type : PlDType → String
  | .boolean => "boolean"
  | .int64 => "number"
  | .float64 => "number"
  | .date => "date"
  | .datetime => "dateTime"
  | _ => "string"

/-- `_is_categorical_dtype`: Categorical or Enum. -/
def _is_categorical_dtype (d : PlDType) : Bool :=
  d = .categorical ∨ d = .enum

/-- Comparison operator of a numeric filter expression. -/
inductive NumOp where
  | eq
  | ne
  | gt
  | ge
  | lt
  | le
deriving DecidableEq, Repr

/-- Deep embedding of the polars expressions `_build_filter_expr`
produces.  `str*` atoms operate on the column cast to String via
`_col_to_str_expr`. -/
inductive PlExpr where
  | isNull (field : String)
  | isNotNull (field : String)
  | strEq (field : String) (v : String)
  | strNe (field : String) (v : String)
  | strIsIn (field : String) (vs : List String)
  | strContains (field : String) (v : String)
  | strStartsWith (field : String) (v : String)
  | strEndsWith (field : String) (v : String)
  | numCmp (field : String) (op : NumOp) (v : Int)
  | and (a b : PlExpr)
  | or (a b : PlExpr)
deriving DecidableEq, Repr

/-- `_coerce_numeric`: native numbers pass through, numeric strings are
stripped and parsed as integers.  The float branch of the source
(`float(value)` after a failed `int(value)`, and native Python floats)
is outside the integer model; no claim involves non-integral values. -/
def _coerce_numeric : Val → Option Int
  | .i n => some n
  | .s raw =>
      let t := raw.trim
      if t = "" then none else t.toInt?
  | _ => none

/-- Lowercasing of a string (Python `str.lower()` on the ASCII column
names involved), used only to state case-insensitivity side conditions. -/
def lowerStr (s : String) : String := ⟨s.data.map Char.toLower⟩

/-- A polars schema: ordered column name → data type mapping. -/
abbrev PlSchema := List (String × PlDType)

/-- `field in schema` / `schema[field]` on a polars schema dict. -/
def schemaLookup (schema : PlSchema) (f : String) : Option PlDType :=
  (schema.find? (fun p => p.1 == f)).map Prod.snd

/-- `_build_filter_expr(item, schema)` from `polars_utils.py`.  Returns
`none` whenever the source returns `None`: unknown field (exact key
lookup — there is no case-insensitive fallback here), missing value for
a value-needing operator, unknown operator, non-list `isAnyOf` value,
or non-coercible numeric value. -/
def _build_filter_expr (item : FilterItem) (schema : PlSchema) : Option PlExpr :=
  match schemaLookup schema item.field with
  | none => none
  | some dtype =>
    let f := item.field
    let gridType := polars_dtype_to_grid_type dtype
    if item.operator = "isEmpty" then
      some (.or (.isNull f) (.strEq f ""))
    else if item.operator = "isNotEmpty" then
      some (.and (.isNotNull f) (.strNe f ""))
    else
      match item.value with
      | none => none
      | some v =>
        if item.operator = "is" then some (.strEq f (pyStr v))
        else if item.operator = "not" then some (.strNe f (pyStr v))
        else if item.operator = "isAnyOf" then
          match v with
          | .arr vs => some (.strIsIn f (vs.map pyStrPrim))
          | _ => none
        else if gridType = "string" ∨ _is_categorical_dtype dtype then
          let sv := pyStr v
          if item.operator = "contains" then some (.strContains f sv)
          else if item.operator = "equals" then some (.strEq f sv)
          else if item.operator = "startsWith" then some (.strStartsWith f sv)
          else if item.operator = "endsWith" then some (.strEndsWith f sv)
          else none
        else if gridType = "number" then
          match _coerce_numeric v with
          | none => none
          | some n =>
            if item.operator = "=" ∨ item.operator = "equals" then
              some (.numCmp f .eq n)
            else if item.operator = "!=" ∨ item.operator = "not" then
              some (.numCmp f .ne n)
            else if item.operator = ">" then some (.numCmp f .gt n)
            else if item.operator = ">=" then some (.numCmp f .ge n)
            else if item.operator = "<" then some (.numCmp f .lt n)
            else if item.operator = "<=" then some (.numCmp f .le n)
            else none
        else none

/-- Deep embedding of a lazy query handle: the composition tree of
operations applied to an opaque source.  Composition never executes
anything, mirroring polars laziness. -/
inductive LF where
  | source (id : Nat)
  | filter (lf : LF) (e : PlExpr)
deriving DecidableEq, Repr

/-- `apply_filter_model(lf, filter_model, schema)` from
`polars_utils.py`: translate each item, drop untranslatable ones,
combine with `&`/`|` per `logicOperator`, and return `lf.filter(...)`;
return `lf` unchanged when `items` is empty or no item translates. -/
def apply_filter_model (lf : LF) (filter_model : FilterModel) (schema : PlSchema) : LF :=
  if filter_model.items = [] then lf
  else
    let logic := (filter_model.logicOperator.getD "and").toLower
    let exprs := filter_model.items.filterMap (fun it => _build_filter_expr it schema)
    match exprs with
    | [] => lf
    | e :: rest =>
      let combined :=
        if logic = "or" then rest.foldl PlExpr.or e
        else rest.foldl PlExpr.and e
      LF.filter lf combined

/-! ## Session controller (LazyFrameGridMixin, lazyframe_grid.py)

The controller is modelled over a materialized view of the polars
engine: `data` is the cached LazyFrame's row list, and `filterF` /
`sortF` are the denotations of `apply_filter_model` /
`apply_sort_model` for the session's current accumulated models (the
handlers modelled here never change which predicate they denote
mid-sequence).  The claims settled on this model (C7, C9) are
independent of what the predicates compute.

State fields mirror the mixin's variables.  The generated-text
variables (`lf_grid_query_code`, `lf_grid_query_sql`,
`lf_grid_query_plan`, `lf_grid_filter_preset_json`,
`lf_grid_filter_debug`) are write-only presentation strings, never read
by any control flow, and are left out of the state; timing values
(`elapsed_ms`) and Python's thousands separators in stats strings are
likewise outside the model. -/

/-- A materialized row: the field→value dict of one grid row, before
the `__row_id__` column is added. -/
abbrev RowV := List (String × Val)

/-- One MUI sort entry `{field, sort}`. -/
structure SortEntry where
  field : String
  sort : String
deriving DecidableEq, Repr

/-- The serializable per-session state of `LazyFrameGridMixin`.  A row
of the buffer is `(rowId, row)`: the `__row_id__` value paired with the
row's remaining fields. -/
structure SessionState where
  rows : List (Nat × RowV)
  rowCount : Nat
  loading : Bool
  loaded : Bool
  stats : String
  selectedInfo : String
  filterModel : FilterModel
  activeFilterFields : List String
  page : Nat
  pageSize : Nat
  accFilter : FilterModel
  sortModel : List SortEntry
deriving DecidableEq, Repr

/-- `df.with_row_index("__row_id__", offset=off)`: pair each row of the
collected page slice with `off`, `off+1`, …. -/
def withRowIndex (off : Nat) : List RowV → List (Nat × RowV)
  | [] => []
  | r :: rs => (off, r) :: withRowIndex (off + 1) rs

/-- The filtered-then-sorted result the current session state denotes:
filter applied iff the accumulated filter has items, sort applied iff
the sort model is non-empty (the truthiness checks of
`_refresh_lf_grid_page`). -/
def gridResult (filterF sortF : List RowV → List RowV) (data : List RowV)
    (s : SessionState) : List RowV :=
  let lf1 := if s.accFilter.items = [] then data else filterF data
  if s.sortModel = [] then lf1 else sortF lf1

/-- `_refresh_lf_grid_page(append=..., refresh_row_count=...)`: apply
the accumulated filter, recount rows from the filtered handle when
requested, apply the accumulated sort, slice the current page, attach
`__row_id__` values starting at the page offset, and replace or append
the row buffer.  The second component counts the `collect()` queries
executed (the count query plus the slice query). -/
def _refresh_lf_grid_page (filterF sortF : List RowV → List RowV) (data : List RowV)
    (append refreshRowCount : Bool) (s : SessionState) : SessionState × Nat :=
  let lf1 := if s.accFilter.items = [] then data else filterF data
  let s1 := if refreshRowCount then { s with rowCount := lf1.length } else s
  let lf2 := if s.sortModel = [] then lf1 else sortF lf1
  let offset := s1.page * s1.pageSize
  let pageRows := (lf2.drop offset).take s1.pageSize
  let newRows := withRowIndex offset pageRows
  let rows' := if append then s1.rows ++ newRows else newRows
  let statsText := "offset=" ++ toString offset ++ "  +" ++ toString newRows.length
    ++ " rows  loaded=" ++ toString rows'.length ++ " / "
    ++ toString s1.rowCount ++ "  ("
    ++ (if append then "append" else "replace") ++ ")"
  ({ s1 with rows := rows', stats := statsText },
   (if refreshRowCount then 1 else 0) + 1)

/-- `handle_lf_grid_scroll_end(_params)`: return unchanged while
loading; return unchanged when the next offset reaches the known row
count; otherwise advance the page and append-refresh without
recounting.  The second component counts `collect()` queries. -/
def handle_lf_grid_scroll_end (filterF sortF : List RowV → List RowV) (data : List RowV)
    (s : SessionState) : SessionState × Nat :=
  if s.loading then (s, 0)
  else
    let page := s.page
    let pageSize := s.pageSize
    let nextOffset := (page + 1) * pageSize
    if s.rowCount ≤ nextOffset then (s, 0)
    else
      let loadingStats := "Loading rows " ++ toString nextOffset ++ "..."
      let s1 := { s with loading := true, stats := loadingStats }
      let s2 := { s1 with page := page + 1, pageSize := pageSize }
      let r := _refresh_lf_grid_page filterF sortF data true false s2
      ({ r.1 with loading := false }, r.2)

/-- The state-mutating part of `_update_filter_debug`: recompute the
active-filter field list from the accumulated filter (the debug string
itself is presentation-only and outside the model). -/
def _update_filter_debug (s : SessionState) : SessionState :=
  let fields := s.accFilter.items.filterMap
    (fun item => if item.field = "" then none else some item.field)
  { s with activeFilterFields := fields }

/-- An uploaded preset JSON `{filter_model, sort_model}`; each key may
be absent (`preset.get(..., default)`). -/
structure Preset where
  filter_model : Option FilterModel
  sort_model : Option (List SortEntry)
deriving DecidableEq, Repr

/-- `handle_lf_grid_preset_upload(files)`.  Each element of `files`
carries the parse outcome of its content: `none` models a payload on
which UTF-8 decoding or `json.loads` raises.  The handler mutates state
in place, so when the parse raises the exception propagates with the
mutations made so far kept — modelled as `Except.error` carrying the
state at the raise point. -/
def handle_lf_grid_preset_upload (filterF sortF : List RowV → List RowV) (data : List RowV)
    (files : List (Option Preset)) (s : SessionState) :
    Except SessionState (SessionState × Nat) :=
  match files with
  | [] => .ok (s, 0)
  | f :: _ =>
    let s1 := { s with loading := true, stats := "Applying preset..." }
    match f with
    | none => .error s1
    | some preset =>
      let fm := preset.filter_model.getD emptyFilterModel
      let sm := preset.sort_model.getD []
      let s2 := { s1 with accFilter := fm, sortModel := sm }
      let s3 :=
        match fm.items.getLast? with
        | some last =>
            { s2 with filterModel := ⟨[last], some (fm.logicOperator.getD "and")⟩ }
        | none => { s2 with filterModel := ⟨[], none⟩ }
      let s4 := { s3 with page := 0 }
      let r := _refresh_lf_grid_page filterF sortF data false true s4
      let s6 := _update_filter_debug r.1
      let s7 := { s6 with loading := false }
      let info := "Preset applied: " ++ toString fm.items.length ++ " filter(s), "
        ++ toString sm.length ++ " sort(s). " ++ toString s7.rowCount
        ++ " rows match."
      .ok ({ s7 with selectedInfo := info }, r.2)

/-- The state at the end of any handler that performs a replace-mode
page refresh (`set_lazyframe`, filter change, sort change, clear,
preset apply): pagination reset to page 0, replace refresh, loading
cleared. -/
def afterReplaceRefresh (filterF sortF : List RowV → List RowV) (data : List RowV)
    (refreshRowCount : Bool) (b : SessionState) : SessionState :=
  { (_refresh_lf_grid_page filterF sortF data false refreshRowCount
      { b with page := 0 }).1 with loading := false }

/-- `n` successive scroll-near-end events delivered to the session. -/
def scrollIter (filterF sortF : List RowV → List RowV) (data : List RowV)
    (s : SessionState) : Nat → SessionState
  | 0 => s
  | n + 1 => (handle_lf_grid_scroll_end filterF sortF data
      (scrollIter filterF sortF data s n)).1

/-! ## Python import and call-binding models (C4, C10) -/

/-- The names bound at the top level of
`reflex_mui_datagrid/polars_utils.py`: its own imports plus every `def`
in the module.  `from M import x` succeeds exactly when `x` is an
attribute of the module `M`, i.e. one of these names. -/
def polarsUtilsTopLevelNames : List String :=
  ["Any", "Literal", "pl", "rx", "ColumnDef",
   "polars_dtype_to_grid_type", "_humanize_field_name",
   "_is_categorical_dtype", "_col_to_str_expr", "_col_to_str_code",
   "_detect_single_select", "lazyframe_to_datagrid",
   "build_column_defs_from_schema", "_build_filter_expr",
   "_coerce_numeric", "apply_filter_model", "apply_sort_model",
   "_filter_item_to_code", "generate_polars_code", "generate_sql_where",
   "_filter_item_to_sql", "_dataframe_to_dicts", "show_dataframe"]

/-- The names `lazyframe_grid.py` (lines 37-45) requests from
`reflex_mui_datagrid.polars_utils`. -/
def lazyframeGridImportList : List String :=
  ["_dataframe_to_dicts", "_resolve_field_name", "apply_filter_model",
   "apply_sort_model", "build_column_defs_from_schema",
   "generate_polars_code", "generate_sql_where"]

/-- `from M import a, b, …` succeeds iff every requested name is bound
in module `M`. -/
def fromImportOk (moduleNames requested : List String) : Bool :=
  requested.all (fun n => moduleNames.contains n)

/-- Whether importing `reflex_mui_datagrid.lazyframe_grid` raises
`ImportError` at its `from …polars_utils import …` statement. -/
def importLazyframeGridRaises : Bool :=
  ! fromImportOk polarsUtilsTopLevelNames lazyframeGridImportList

/-- One import statement of `reflex_mui_datagrid/__init__.py`;
`guarded` means wrapped in `try: … except ImportError: pass`. -/
structure PyImport where
  module : String
  guarded : Bool
deriving DecidableEq, Repr

/-- The module imports executed by `reflex_mui_datagrid/__init__.py`,
in order; only the `polars_bio_utils` import is inside a
`try/except ImportError` block. -/
def packageInitImportList : List PyImport :=
  [⟨"datagrid", false⟩, ⟨"lazyframe_grid", false⟩, ⟨"models", false⟩,
   ⟨"polars_utils", false⟩, ⟨"polars_bio_utils", true⟩]

/-- Whether importing module `m` raises; the only failure the model
derives is the `lazyframe_grid` one. -/
def moduleImportFails (m : String) : Bool :=
  m == "lazyframe_grid" && importLazyframeGridRaises

/-- Whether `import reflex_mui_datagrid` (the package `__init__`)
raises: some unguarded module import fails. -/
def importPackageRaises : Bool :=
  packageInitImportList.any (fun i => !i.guarded && moduleImportFails i.module)

/-- The keyword parameters accepted by `lazyframe_to_datagrid`
(`polars_utils.py`, lines 122-130); the function has no `**kwargs`. -/
def lazyframeToDatagridKeywordParams : List String :=
  ["id_field", "show_id_field", "limit", "single_select_threshold",
   "column_descriptions"]

/-- The keyword arguments `bio_lazyframe_to_datagrid` passes in its
call to `lazyframe_to_datagrid` (`polars_bio_utils.py`, lines 123-131). -/
def bioForwardedKeywordArgs : List String :=
  ["id_field", "show_id_field", "limit", "single_select_threshold",
   "single_select_ratio", "column_descriptions"]

/-- Python call binding for keyword arguments: without `**kwargs` in
the callee, binding succeeds iff every keyword argument names a
parameter; otherwise the call raises `TypeError` before the callee body
runs. -/
def callBindOk (params : List String) (hasVarKeywords : Bool) (kwargs : List String) : Bool :=
  hasVarKeywords || kwargs.all (fun k => params.contains k)

/-- Whether the forwarding call inside `bio_lazyframe_to_datagrid`
raises `TypeError`. -/
def bioForwardRaisesTypeError : Bool :=
  ! callBindOk lazyframeToDatagridKeywordParams false bioForwardedKeywordArgs

/-! ## Auxiliary definitions for the statements below -/

/-- A plain ready session state used to instantiate concrete scenarios. -/
def baseState : SessionState :=
  { rows := [], rowCount := 0, loading := false, loaded := true, stats := "",
    selectedInfo := "", filterModel := emptyFilterModel, activeFilterFields := [],
    page := 0, pageSize := 0, accFilter := emptyFilterModel, sortModel := [] }

/-- Row-buffer invariant maintained across one unbroken append sequence:
loading is clear, the buffer is exactly the prefix of the current
filtered+sorted result indexed from 0, and its length is the page
window clipped to the result length. -/
def BufferInv (filterF sortF : List RowV → List RowV) (data : List RowV)
    (s : SessionState) : Prop :=
  s.loading = false ∧
  s.rows = withRowIndex 0 ((gridResult filterF sortF data s).take s.rows.length) ∧
  s.rows.length = min ((s.page + 1) * s.pageSize) (gridResult filterF sortF data s).length

/-- The session state reached by one replace-mode refresh (page reset
to 0) followed by `n` scroll-near-end events: one unbroken append
sequence. -/
def appendSequenceState (filterF sortF : List RowV → List RowV) (data : List RowV)
    (rc : Bool) (b : SessionState) (n : Nat) : SessionState :=
  scrollIter filterF sortF data (afterReplaceRefresh filterF sortF data rc b) n

/-- Key/field coherence of the `by_field` map: every entry is stored
under its item's own field (true of every map the merge builds, since
`by_field[field] = item` always uses `item["field"]` as the key). -/
def FieldInv (m : List (String × FilterItem)) : Prop :=
  ∀ p ∈ m, p.2.field = p.1

/-! ## Theorems -/

/-- C3: merging any incoming filter model whose items list is empty
into any accumulated filter model (including a non-empty one) returns
the empty filter model: an empty incoming model is a full clear. -/
theorem merge_empty_incoming_clears (existing : FilterModel) (lo : Option String) :
    merge_filter_model existing ⟨[], lo⟩ = emptyFilterModel := by
  simp [merge_filter_model]

/-- C4: `lazyframe_grid.py` requests `_resolve_field_name` from
`polars_utils`, which binds no such name, so importing the session
controller module raises `ImportError`; the package `__init__` imports
it outside any try/except, so `import reflex_mui_datagrid` raises too,
making every session-controller operation unreachable through a normal
package import. -/
theorem import_lazyframe_grid_always_fails :
    importLazyframeGridRaises = true ∧
    "_resolve_field_name" ∈ lazyframeGridImportList ∧
    "_resolve_field_name" ∉ polarsUtilsTopLevelNames ∧
    importPackageRaises = true := by decide

/-- C10: `bio_lazyframe_to_datagrid` forwards the keyword argument
`single_select_ratio` to `lazyframe_to_datagrid`, whose signature has
no such parameter and no `**kwargs`, so the forwarded call raises
`TypeError` at binding time — before the callee body can produce any
rows or column definitions. -/
theorem bio_forward_always_raises :
    bioForwardRaisesTypeError = true ∧
    "single_select_ratio" ∈ bioForwardedKeywordArgs ∧
    "single_select_ratio" ∉ lazyframeToDatagridKeywordParams := by decide

/-- C7: the scroll-near-end handler is a strict no-op — state returned
unchanged and zero queries executed — whenever the session is already
loading or the next page offset `(page+1)*page_size` has reached the
current row count. -/
theorem scroll_end_guards_noop (filterF sortF : List RowV → List RowV)
    (data : List RowV) (s : SessionState)
    (h : s.loading = true ∨ s.rowCount ≤ (s.page + 1) * s.pageSize) :
    handle_lf_grid_scroll_end filterF sortF data s = (s, 0) := by
  cases hb : s.loading with
  | true => simp [handle_lf_grid_scroll_end, hb]
  | false =>
    rcases h with h | h
    · rw [hb] at h; cases h
    · simp [handle_lf_grid_scroll_end, hb, h]

/-- Witness for C7: a concrete loading session, and a concrete idle
session whose next offset reaches the row count, are both left
untouched by the scroll handler. -/
theorem scroll_end_guards_noop_witness :
    (({ baseState with loading := true } : SessionState).loading = true ∨
      ({ baseState with loading := true } : SessionState).rowCount ≤
        (({ baseState with loading := true } : SessionState).page + 1) *
          ({ baseState with loading := true } : SessionState).pageSize) ∧
    handle_lf_grid_scroll_end id id [] { baseState with loading := true } =
      ({ baseState with loading := true }, 0) ∧
    handle_lf_grid_scroll_end id id [] { baseState with rowCount := 4, pageSize := 2, page := 1 } =
      ({ baseState with rowCount := 4, pageSize := 2, page := 1 }, 0) :=
  ⟨Or.inl rfl,
   scroll_end_guards_noop id id [] _ (Or.inl rfl),
   scroll_end_guards_noop id id [] _ (Or.inr (by decide))⟩

/-- C8 (failing input): uploading a preset whose payload is not valid
JSON makes `json.loads` raise after `lf_grid_loading` was already set;
the handler has no try/finally, so it aborts with the loading flag
still true — the claim that every handler finishes with loading
cleared fails on this input. -/
theorem preset_upload_unparseable_leaves_loading :
    handle_lf_grid_preset_upload id id [] [none] baseState =
      .error { baseState with loading := true, stats := "Applying preset..." } ∧
    ({ baseState with loading := true, stats := "Applying preset..." } : SessionState).loading
      = true :=
  ⟨rfl, rfl⟩

/-- C5 (counterexample): with schema column `Age` and a criterion on
field `age` — a case-insensitive match with no exact match — the
builder translates the criterion to nothing and `apply_filter_model`
returns the handle unchanged: the criterion is dropped, no
case-insensitive fallback is applied. -/
theorem filter_no_case_fallback_counterexample :
    ("age" : String) ≠ "Age" ∧ lowerStr "age" = lowerStr "Age" ∧
    schemaLookup [("Age", PlDType.int64)] "age" = none ∧
    _build_filter_expr ⟨"age", ">", some (Val.i 30)⟩ [("Age", PlDType.int64)] = none ∧
    apply_filter_model (LF.source 0) ⟨[⟨"age", ">", some (Val.i 30)⟩], some "and"⟩
      [("Age", PlDType.int64)] = LF.source 0 := by
  refine ⟨by decide, by decide, rfl, rfl, rfl⟩

/-- C5 (amended): a criterion whose field has no exact schema match is
skipped by the filter-query builder even when a schema column matches
it case-insensitively: `_build_filter_expr` yields nothing and a model
holding only that criterion leaves the handle unchanged. -/
theorem filter_case_mismatch_skipped (lf : LF) (schema : PlSchema)
    (item : FilterItem) (lo : Option String)
    (hexact : schemaLookup schema item.field = none)
    (_hci : ∃ p ∈ schema, p.1 ≠ item.field ∧ lowerStr p.1 = lowerStr item.field) :
    _build_filter_expr item schema = none ∧
    apply_filter_model lf ⟨[item], lo⟩ schema = lf := by
  have hb : _build_filter_expr item schema = none := by
    unfold _build_filter_expr
    rw [hexact]
  refine ⟨hb, ?_⟩
  simp [apply_filter_model, hb]

/-- Witness for C5 (amended): concrete schema `["Age"]` and criterion
field `aGe`: no exact match, a case-insensitive match exists, and the
criterion is dropped. -/
theorem filter_case_mismatch_skipped_witness :
    schemaLookup [("Age", PlDType.int64)] "aGe" = none ∧
    (∃ p ∈ [("Age", PlDType.int64)], p.1 ≠ "aGe" ∧ lowerStr p.1 = lowerStr "aGe") ∧
    (_build_filter_expr ⟨"aGe", "<", some (Val.i 7)⟩ [("Age", PlDType.int64)] = none ∧
     apply_filter_model (LF.source 3) ⟨[⟨"aGe", "<", some (Val.i 7)⟩], none⟩
       [("Age", PlDType.int64)] = LF.source 3) :=
  ⟨by decide, by decide,
   filter_case_mismatch_skipped (LF.source 3) [("Age", PlDType.int64)]
     ⟨"aGe", "<", some (Val.i 7)⟩ none (by decide) (by decide)⟩

/-! ### Dictionary lemmas for the merge algorithm -/

/-- Replacing the entries keyed `k` leaves lookups of other keys alone. -/
theorem find_map_replace_ne (m : List (String × FilterItem)) (k : String)
    (v : FilterItem) (f : String) (h : (k == f) = false) :
    (m.map (fun p => if p.1 == k then (k, v) else p)).find? (fun p => p.1 == f) =
      m.find? (fun p => p.1 == f) := by
  induction m with
  | nil => rfl
  | cons p m' ih =>
    rw [List.map_cons]
    by_cases hp : (p.1 == k) = true
    · have hpk : p.1 = k := eq_of_beq hp
      rw [if_pos hp]
      simp only [List.find?_cons, hpk, h, ih]
    · rw [if_neg hp]
      cases hf : p.1 == f with
      | true => simp only [List.find?_cons, hf]
      | false => simp only [List.find?_cons, hf, ih]

/-- Appending an entry keyed `k` leaves lookups of other keys alone. -/
theorem find_append_ne (m : List (String × FilterItem)) (k : String)
    (v : FilterItem) (f : String) (h : (k == f) = false) :
    (m ++ [(k, v)]).find? (fun p => p.1 == f) = m.find? (fun p => p.1 == f) := by
  induction m with
  | nil =>
    rw [List.nil_append]
    simp only [List.find?_cons, h, List.find?_nil]
  | cons p m' ih =>
    rw [List.cons_append]
    cases hf : p.1 == f with
    | true => simp only [List.find?_cons, hf]
    | false => simp only [List.find?_cons, hf, ih]

/-- Appending an entry keyed `k` to a map without `k` makes the lookup
of `k` yield it. -/
theorem find_append_self (m : List (String × FilterItem)) (k : String)
    (v : FilterItem) (h : m.find? (fun p => p.1 == k) = none) :
    (m ++ [(k, v)]).find? (fun p => p.1 == k) = some (k, v) := by
  induction m with
  | nil =>
    rw [List.nil_append]
    simp only [List.find?_cons, beq_self_eq_true]
  | cons p m' ih =>
    have hall := List.find?_eq_none.mp h
    have hp : (p.1 == k) = false :=
      Bool.eq_false_iff.mpr (hall p (List.mem_cons_self p m'))
    rw [List.cons_append]
    simp only [List.find?_cons, hp]
    exact ih (List.find?_eq_none.mpr
      (fun x hx => hall x (List.mem_cons_of_mem p hx)))

/-- Dict update: looking up a different key is unaffected. -/
theorem dictFind_upsert_ne (m : List (String × FilterItem)) (k : String)
    (v : FilterItem) (f : String) (h : k ≠ f) :
    dictFind (dictUpsert m k v) f = dictFind m f := by
  have hb : (k == f) = false := by simpa using h
  unfold dictUpsert dictFind
  by_cases ha : m.any (fun p => p.1 == k) = true
  · rw [if_pos ha, find_map_replace_ne m k v f hb]
  · rw [if_neg ha, find_append_ne m k v f hb]

/-- Replacing the entries keyed `k` makes the lookup of `k` yield the
new value, provided some entry carried `k`. -/
theorem find_map_replace_self (m : List (String × FilterItem)) (k : String)
    (v : FilterItem) (h : m.any (fun p => p.1 == k) = true) :
    (m.map (fun p => if p.1 == k then (k, v) else p)).find? (fun p => p.1 == k) =
      some (k, v) := by
  induction m with
  | nil => cases h
  | cons p m' ih =>
    rw [List.map_cons]
    by_cases hp : (p.1 == k) = true
    · rw [if_pos hp]
      simp only [List.find?_cons, beq_self_eq_true]
    · have h' : m'.any (fun p => p.1 == k) = true := by
        rcases List.any_eq_true.mp h with ⟨x, hx, hpx⟩
        rcases List.mem_cons.mp hx with rfl | hx'
        · exact absurd hpx hp
        · exact List.any_eq_true.mpr ⟨x, hx', hpx⟩
      have hpf : (p.1 == k) = false := Bool.eq_false_iff.mpr hp
      rw [if_neg hp]
      simp only [List.find?_cons, hpf, ih h']

/-- Dict update: looking up the updated key yields the new value. -/
theorem dictFind_upsert_self (m : List (String × FilterItem)) (k : String)
    (v : FilterItem) : dictFind (dictUpsert m k v) k = some v := by
  unfold dictUpsert dictFind
  by_cases ha : m.any (fun p => p.1 == k) = true
  · rw [if_pos ha, find_map_replace_self m k v ha]
    rfl
  · rw [if_neg ha]
    have hnone : m.find? (fun p => p.1 == k) = none := by
      rw [List.find?_eq_none]
      intro p hp hpk
      exact ha (List.any_eq_true.mpr ⟨p, hp, hpk⟩)
    rw [find_append_self m k v hnone]
    rfl

/-- A successful lookup needs a non-empty map. -/
theorem dictFind_ne_nil (m : List (String × FilterItem)) (f : String)
    (e : FilterItem) (h : dictFind m f = some e) : m ≠ [] := by
  intro hm
  subst hm
  cases h

/-- A merge step for an item of a different field leaves the lookup of
`f` unchanged. -/
theorem dictFind_mergeStep_ne (m : List (String × FilterItem)) (item : FilterItem)
    (f : String) (h : item.field ≠ f) :
    dictFind (mergeStep m item) f = dictFind m f := by
  unfold mergeStep
  repeat' split
  all_goals first
    | rfl
    | exact dictFind_upsert_ne _ _ _ _ h

/-- Folding merge steps for items of other fields leaves the lookup of
`f` unchanged. -/
theorem dictFind_foldl_mergeStep_ne (l : List FilterItem)
    (m : List (String × FilterItem)) (f : String) (h : ∀ j ∈ l, j.field ≠ f) :
    dictFind (l.foldl mergeStep m) f = dictFind m f := by
  induction l generalizing m with
  | nil => rfl
  | cons j l' ih =>
    rw [List.foldl_cons, ih (mergeStep m j) (fun x hx => h x (List.mem_cons_of_mem j hx)),
      dictFind_mergeStep_ne m j f (h j (List.mem_cons_self j l'))]

/-- `dictUpsert` preserves key/field coherence when the new value's
field is the key. -/
theorem fieldInv_upsert (m : List (String × FilterItem)) (k : String)
    (v : FilterItem) (hm : FieldInv m) (hv : v.field = k) :
    FieldInv (dictUpsert m k v) := by
  unfold dictUpsert
  by_cases ha : m.any (fun p => p.1 == k) = true
  · rw [if_pos ha]
    intro p hp
    rcases List.mem_map.mp hp with ⟨q, hq, hq2⟩
    by_cases hqk : (q.1 == k) = true
    · rw [if_pos hqk] at hq2
      rw [← hq2]
      exact hv
    · rw [if_neg hqk] at hq2
      rw [← hq2]
      exact hm q hq
  · rw [if_neg ha]
    intro p hp
    rcases List.mem_append.mp hp with hp | hp
    · exact hm p hp
    · rcases List.mem_singleton.mp hp with rfl
      exact hv

/-- A coherent map looks up entries whose field is the key. -/
theorem dictFind_field (m : List (String × FilterItem)) (k : String)
    (e : FilterItem) (hm : FieldInv m) (h : dictFind m k = some e) :
    e.field = k := by
  unfold dictFind at h
  cases hq : m.find? (fun p => p.1 == k) with
  | none => rw [hq] at h; cases h
  | some q =>
    rw [hq, Option.map_some'] at h
    have hqk := List.find?_some hq
    have hqm : q ∈ m := List.mem_of_find?_eq_some hq
    have hfld := hm q hqm
    injection h with h2
    rw [← h2, hfld]
    exact eq_of_beq (by simpa using hqk)

/-- A merge step preserves key/field coherence. -/
theorem fieldInv_mergeStep (m : List (String × FilterItem)) (item : FilterItem)
    (hm : FieldInv m) : FieldInv (mergeStep m item) := by
  unfold mergeStep
  split
  · exact hm
  · split
    · exact fieldInv_upsert m item.field item hm rfl
    · split
      · split
        · rename_i existing hfind _
          exact fieldInv_upsert m item.field _ hm
            (dictFind_field m item.field existing hm hfind)
        · exact hm
      · exact hm

/-- Folding merge steps preserves key/field coherence. -/
theorem fieldInv_foldl_mergeStep (l : List FilterItem)
    (m : List (String × FilterItem)) (hm : FieldInv m) :
    FieldInv (l.foldl mergeStep m) := by
  induction l generalizing m with
  | nil => exact hm
  | cons j l' ih => exact ih (mergeStep m j) (fieldInv_mergeStep m j hm)

/-- The map built from the accumulated items is key/field coherent. -/
theorem fieldInv_buildByField (items : List FilterItem) :
    FieldInv (buildByField items) := by
  unfold buildByField
  suffices h : ∀ m, FieldInv m → FieldInv (items.foldl
      (fun m item => if item.field = "" then m else dictUpsert m item.field item) m) by
    exact h [] (by intro p hp; cases hp)
  induction items with
  | nil => intro m hm; exact hm
  | cons j l' ih =>
    intro m hm
    rw [List.foldl_cons]
    apply ih
    by_cases hj : j.field = ""
    · rw [if_pos hj]; exact hm
    · rw [if_neg hj]; exact fieldInv_upsert m j.field j hm rfl

/-- The lookup of `""` fails on the map built from the accumulated
items: the build loop skips items without a field. -/
theorem dictFind_buildByField_empty_key (items : List FilterItem) :
    dictFind (buildByField items) "" = none := by
  unfold buildByField
  suffices h : ∀ m, dictFind m "" = none → dictFind (items.foldl
      (fun m item => if item.field = "" then m else dictUpsert m item.field item) m) "" = none by
    exact h [] rfl
  induction items with
  | nil => intro m hm; exact hm
  | cons j l' ih =>
    intro m hm
    rw [List.foldl_cons]
    apply ih
    by_cases hj : j.field = ""
    · rw [if_pos hj]; exact hm
    · rw [if_neg hj, dictFind_upsert_ne m j.field j "" hj]; exact hm

/-- On a coherent map, searching the item list by field agrees with the
per-field map lookup. -/
theorem find_map_snd (m : List (String × FilterItem)) (f : String) :
    FieldInv m →
      (m.map Prod.snd).find? (fun it => it.field == f) = dictFind m f := by
  induction m with
  | nil => intro _; rfl
  | cons p m' ih =>
    intro hm
    have hp : p.2.field = p.1 := hm p (List.mem_cons_self p m')
    unfold dictFind
    rw [List.map_cons]
    cases hf : p.1 == f with
    | true =>
      have hf2 : (p.2.field == f) = true := by rw [hp]; exact hf
      simp only [List.find?_cons, hf, hf2, Option.map_some']
    | false =>
      have hf2 : (p.2.field == f) = false := by rw [hp]; exact hf
      simp only [List.find?_cons, hf, hf2]
      exact ih (fun q hq => hm q (List.mem_cons_of_mem p hq))

/-- A merge step for a valueless item whose field is already mapped:
the operator is patched exactly when the incoming operator is non-empty
and differs. -/
theorem dictFind_mergeStep_valueless (m : List (String × FilterItem))
    (item c : FilterItem) (hfld : item.field ≠ "") (hval : item.value = none)
    (hop1 : item.operator ≠ "isEmpty") (hop2 : item.operator ≠ "isNotEmpty")
    (hfound : dictFind m item.field = some c) :
    dictFind (mergeStep m item) item.field =
      some (if item.operator ≠ "" ∧ item.operator ≠ c.operator
            then { c with operator := item.operator } else c) := by
  unfold mergeStep
  rw [if_neg hfld]
  have hcond : ¬ (item.value.isSome = true ∨ item.operator = "isEmpty" ∨
      item.operator = "isNotEmpty") := by
    rw [hval]
    simp [hop1, hop2]
  rw [if_neg hcond]
  split
  · rename_i existing heq
    rw [hfound] at heq
    injection heq with heq2
    subst heq2
    by_cases h3 : item.operator ≠ "" ∧ item.operator ≠ c.operator
    · rw [if_pos h3, if_pos h3, dictFind_upsert_self]
    · rw [if_neg h3, if_neg h3, hfound]
  · rename_i heq
    rw [hfound] at heq
    cases heq

/-- C1 (counterexample): accumulated criterion `a contains "x"`,
incoming item for `a` with null value and operator `""` — an operator
that is neither `isEmpty` nor `isNotEmpty` and differs from the
accumulated `contains` — yet the merge leaves the criterion's operator
at `contains` instead of replacing it: the falsy-operator guard
`if operator and …` skips the patch. -/
theorem merge_operator_patch_counterexample :
    ("" : String) ≠ "isEmpty" ∧ ("" : String) ≠ "isNotEmpty" ∧
    ("" : String) ≠ "contains" ∧
    merge_filter_model ⟨[⟨"a", "contains", some (Val.s "x")⟩], some "and"⟩
        ⟨[⟨"a", "", none⟩], some "and"⟩ =
      ⟨[⟨"a", "contains", some (Val.s "x")⟩], some "and"⟩ := by
  refine ⟨by decide, by decide, by decide, by decide⟩

/-- C1 (amended): for an accumulated model with criterion `c` for field
`f` and an incoming model whose only item for `f` has a null value and
an operator other than `isEmpty`/`isNotEmpty`: the merged model's
criterion for `f` keeps `c`'s value, and its operator is replaced by
the incoming operator exactly when that operator is non-empty and
differs from `c`'s; otherwise the criterion is left entirely
untouched. -/
theorem merge_valueless_item_patches_operator
    (acc : FilterModel) (f : String) (c : FilterItem)
    (l₁ l₂ : List FilterItem) (i : FilterItem) (lo : Option String)
    (hacc : dictFind (buildByField acc.items) f = some c)
    (hl₁ : ∀ j ∈ l₁, j.field ≠ f) (hl₂ : ∀ j ∈ l₂, j.field ≠ f)
    (hif : i.field = f) (hval : i.value = none)
    (hop1 : i.operator ≠ "isEmpty") (hop2 : i.operator ≠ "isNotEmpty") :
    (merge_filter_model acc ⟨l₁ ++ i :: l₂, lo⟩).items.find? (fun it => it.field == f) =
      some (if i.operator ≠ "" ∧ i.operator ≠ c.operator
            then { c with operator := i.operator } else c) := by
  subst hif
  have hf : i.field ≠ "" := by
    intro h
    rw [h, dictFind_buildByField_empty_key] at hacc
    cases hacc
  have hInvM : FieldInv (buildByField acc.items) := fieldInv_buildByField acc.items
  have h1 : dictFind (l₁.foldl mergeStep (buildByField acc.items)) i.field = some c :=
    (dictFind_foldl_mergeStep_ne l₁ _ i.field hl₁).trans hacc
  have h2 : dictFind (mergeStep (l₁.foldl mergeStep (buildByField acc.items)) i) i.field =
      some (if i.operator ≠ "" ∧ i.operator ≠ c.operator
            then { c with operator := i.operator } else c) :=
    dictFind_mergeStep_valueless _ i c hf hval hop1 hop2 h1
  have h3 : dictFind ((l₁ ++ i :: l₂).foldl mergeStep (buildByField acc.items)) i.field =
      some (if i.operator ≠ "" ∧ i.operator ≠ c.operator
            then { c with operator := i.operator } else c) := by
    rw [List.foldl_append, List.foldl_cons]
    exact (dictFind_foldl_mergeStep_ne l₂ _ i.field hl₂).trans h2
  have hInvF : FieldInv ((l₁ ++ i :: l₂).foldl mergeStep (buildByField acc.items)) :=
    fieldInv_foldl_mergeStep _ _ hInvM
  have hne : l₁ ++ i :: l₂ ≠ [] := by
    intro h
    rcases List.append_eq_nil.mp h with ⟨_, h'⟩
    cases h'
  have hmapne : ((l₁ ++ i :: l₂).foldl mergeStep (buildByField acc.items)).map Prod.snd ≠ [] := by
    intro hmap
    exact dictFind_ne_nil _ _ _ h3 (List.map_eq_nil_iff.mp hmap)
  simp only [merge_filter_model]
  rw [if_neg hne, if_neg hmapne]
  rw [find_map_snd _ _ hInvF]
  exact h3

/-- Witness for C1 (amended): accumulated `a equals "5"`, incoming
single item `a >` with no value: the merged criterion for `a` becomes
`a > "5"` — operator patched, value kept. -/
theorem merge_valueless_item_patches_operator_witness :
    dictFind (buildByField (⟨[⟨"a", "equals", some (Val.s "5")⟩], some "and"⟩ :
        FilterModel).items) "a" = some ⟨"a", "equals", some (Val.s "5")⟩ ∧
    (merge_filter_model ⟨[⟨"a", "equals", some (Val.s "5")⟩], some "and"⟩
        ⟨[] ++ ⟨"a", ">", none⟩ :: [], some "and"⟩).items.find?
        (fun it => it.field == "a") =
      some (if (">" : String) ≠ "" ∧ (">" : String) ≠ (⟨"a", "equals", some (Val.s "5")⟩ :
            FilterItem).operator
            then { (⟨"a", "equals", some (Val.s "5")⟩ : FilterItem) with operator := ">" }
            else ⟨"a", "equals", some (Val.s "5")⟩) :=
  ⟨by decide,
   merge_valueless_item_patches_operator
     ⟨[⟨"a", "equals", some (Val.s "5")⟩], some "and"⟩ "a"
     ⟨"a", "equals", some (Val.s "5")⟩ [] [] ⟨"a", ">", none⟩ (some "and")
     (by decide) (by decide) (by decide) rfl rfl (by decide) (by decide)⟩

/-- C2 (counterexample): an incoming item with a non-null value but an
empty field name is silently skipped — the merge returns the empty
model instead of upserting it and setting the combinator. -/
theorem merge_upsert_counterexample :
    (some (Val.s "x") ≠ (none : Option Val)) ∧
    merge_filter_model emptyFilterModel
        ⟨[⟨"", "equals", some (Val.s "x")⟩], some "and"⟩ = emptyFilterModel := by
  refine ⟨by decide, by decide⟩

/-- C2 (amended): merging an incoming model whose single item has a
non-empty field and has a value (non-null value, or operator
`isEmpty`/`isNotEmpty`) upserts that item under its field, maps every
other field to its accumulated criterion (per the field-keyed map built
from the accumulated items), and sets the combinator to the incoming
model's. -/
theorem merge_single_valued_item_upserts
    (acc : FilterModel) (i : FilterItem) (lo : Option String)
    (hf : i.field ≠ "")
    (hval : i.value.isSome = true ∨ i.operator = "isEmpty" ∨ i.operator = "isNotEmpty") :
    (merge_filter_model acc ⟨[i], lo⟩).items.find? (fun it => it.field == i.field) =
        some i ∧
    (∀ g, g ≠ i.field →
      (merge_filter_model acc ⟨[i], lo⟩).items.find? (fun it => it.field == g) =
        dictFind (buildByField acc.items) g) ∧
    (merge_filter_model acc ⟨[i], lo⟩).logicOperator = some (lo.getD "and") := by
  have hInvM : FieldInv (buildByField acc.items) := fieldInv_buildByField acc.items
  have hstep : ([i] : List FilterItem).foldl mergeStep (buildByField acc.items) =
      dictUpsert (buildByField acc.items) i.field i := by
    rw [List.foldl_cons, List.foldl_nil]
    unfold mergeStep
    rw [if_neg hf, if_pos hval]
  have hInvF : FieldInv (dictUpsert (buildByField acc.items) i.field i) :=
    fieldInv_upsert _ _ _ hInvM rfl
  have hself : dictFind (dictUpsert (buildByField acc.items) i.field i) i.field = some i :=
    dictFind_upsert_self _ _ _
  have hne : ([i] : List FilterItem) ≠ [] := by intro h; cases h
  have hmapne : (dictUpsert (buildByField acc.items) i.field i).map Prod.snd ≠ [] := by
    intro hmap
    exact dictFind_ne_nil _ _ _ hself (List.map_eq_nil_iff.mp hmap)
  have hres : merge_filter_model acc ⟨[i], lo⟩ =
      ⟨(dictUpsert (buildByField acc.items) i.field i).map Prod.snd,
        some (lo.getD "and")⟩ := by
    simp only [merge_filter_model]
    rw [hstep, if_neg hne, if_neg hmapne]
  refine ⟨?_, ?_, ?_⟩
  · rw [hres]
    exact (find_map_snd _ _ hInvF).trans hself
  · intro g hg
    rw [hres]
    exact (find_map_snd _ _ hInvF).trans
      (dictFind_upsert_ne _ _ _ _ (fun h => hg h.symm))
  · rw [hres]

/-- Witness for C2 (amended): accumulated `dept is "Engineering"`,
incoming single item `age > 30`: the merged model holds both criteria
and the incoming combinator. -/
theorem merge_single_valued_item_upserts_witness :
    ((⟨"age", ">", some (Val.i 30)⟩ : FilterItem).field ≠ "") ∧
    ((merge_filter_model ⟨[⟨"dept", "is", some (Val.s "Engineering")⟩], some "and"⟩
        ⟨[⟨"age", ">", some (Val.i 30)⟩], some "and"⟩).items.find?
        (fun it => it.field == "age") = some ⟨"age", ">", some (Val.i 30)⟩) ∧
    ((merge_filter_model ⟨[⟨"dept", "is", some (Val.s "Engineering")⟩], some "and"⟩
        ⟨[⟨"age", ">", some (Val.i 30)⟩], some "and"⟩).items.find?
        (fun it => it.field == "dept") =
      dictFind (buildByField (⟨[⟨"dept", "is", some (Val.s "Engineering")⟩], some "and"⟩ :
        FilterModel).items) "dept") ∧
    ((merge_filter_model ⟨[⟨"dept", "is", some (Val.s "Engineering")⟩], some "and"⟩
        ⟨[⟨"age", ">", some (Val.i 30)⟩], some "and"⟩).logicOperator = some "and") :=
  ⟨by decide,
   (merge_single_valued_item_upserts
     ⟨[⟨"dept", "is", some (Val.s "Engineering")⟩], some "and"⟩
     ⟨"age", ">", some (Val.i 30)⟩ (some "and") (by decide) (by decide)).1,
   (merge_single_valued_item_upserts
     ⟨[⟨"dept", "is", some (Val.s "Engineering")⟩], some "and"⟩
     ⟨"age", ">", some (Val.i 30)⟩ (some "and") (by decide) (by decide)).2.1
     "dept" (by decide),
   (merge_single_valued_item_upserts
     ⟨[⟨"dept", "is", some (Val.s "Engineering")⟩], some "and"⟩
     ⟨"age", ">", some (Val.i 30)⟩ (some "and") (by decide) (by decide)).2.2⟩

/-- C6: a criterion whose field occurs nowhere in the schema is dropped
without error and without affecting the translation of the other
criteria of the same model; and a model none of whose criteria resolve
translates to the unchanged input handle (a no-op, not an error). -/
theorem unknown_field_skipped_and_noop (lf : LF) (schema : PlSchema)
    (l₁ l₂ : List FilterItem) (bad : FilterItem) (lo : Option String)
    (hbad : schemaLookup schema bad.field = none) (fm : FilterModel)
    (hall : ∀ it ∈ fm.items, _build_filter_expr it schema = none) :
    apply_filter_model lf ⟨l₁ ++ bad :: l₂, lo⟩ schema =
      apply_filter_model lf ⟨l₁ ++ l₂, lo⟩ schema ∧
    apply_filter_model lf fm schema = lf := by
  have hbe : _build_filter_expr bad schema = none := by
    unfold _build_filter_expr
    rw [hbad]
  constructor
  · by_cases h12 : l₁ ++ l₂ = []
    · rcases List.append_eq_nil.mp h12 with ⟨h1, h2⟩
      subst h1
      subst h2
      simp [apply_filter_model, hbe]
    · have hne : l₁ ++ bad :: l₂ ≠ [] := by
        intro h
        rcases List.append_eq_nil.mp h with ⟨_, h'⟩
        cases h'
      have key : (l₁ ++ bad :: l₂).filterMap (fun it => _build_filter_expr it schema)
          = (l₁ ++ l₂).filterMap (fun it => _build_filter_expr it schema) := by
        simp [List.filterMap_append, List.filterMap_cons, hbe]
      simp only [apply_filter_model]
      rw [if_neg hne, if_neg h12, key]
  · by_cases h : fm.items = []
    · simp [apply_filter_model, h]
    · have hnil : fm.items.filterMap (fun it => _build_filter_expr it schema) = [] :=
        List.filterMap_eq_nil_iff.mpr hall
      simp only [apply_filter_model]
      rw [if_neg h, hnil]

/-- Witness for C6: schema `["name"]`, a model `[name contains "a",
ghost equals "x"]` translates like `[name contains "a"]` alone, and a
model whose only criterion names a missing field leaves the handle
unchanged. -/
theorem unknown_field_skipped_and_noop_witness :
    schemaLookup [("name", PlDType.string)]
        (⟨"ghost", "equals", some (Val.s "x")⟩ : FilterItem).field = none ∧
    (∀ it ∈ (⟨[⟨"nope", ">", some (Val.i 1)⟩], some "and"⟩ : FilterModel).items,
      _build_filter_expr it [("name", PlDType.string)] = none) ∧
    (apply_filter_model (LF.source 1)
        ⟨[⟨"name", "contains", some (Val.s "a")⟩] ++ ⟨"ghost", "equals", some (Val.s "x")⟩ ::
          [], some "and"⟩ [("name", PlDType.string)] =
      apply_filter_model (LF.source 1)
        ⟨[⟨"name", "contains", some (Val.s "a")⟩] ++ [], some "and"⟩
        [("name", PlDType.string)] ∧
     apply_filter_model (LF.source 1) ⟨[⟨"nope", ">", some (Val.i 1)⟩], some "and"⟩
        [("name", PlDType.string)] = LF.source 1) :=
  ⟨by decide, by decide,
   unknown_field_skipped_and_noop (LF.source 1) [("name", PlDType.string)]
     [⟨"name", "contains", some (Val.s "a")⟩] [] ⟨"ghost", "equals", some (Val.s "x")⟩
     (some "and") (by decide) ⟨[⟨"nope", ">", some (Val.i 1)⟩], some "and"⟩ (by decide)⟩

/-! ### Row-identifier lemmas for the append sequence (C9) -/

/-- Length of an indexed page slice. -/
theorem withRowIndex_length (off : Nat) (l : List RowV) :
    (withRowIndex off l).length = l.length := by
  induction l generalizing off with
  | nil => rfl
  | cons r rs ih =>
    rw [withRowIndex, List.length_cons, List.length_cons, ih]

/-- Indexing distributes over append, shifting the offset. -/
theorem withRowIndex_append (a : List RowV) (b : List RowV) (off : Nat) :
    withRowIndex off (a ++ b) = withRowIndex off a ++ withRowIndex (off + a.length) b := by
  induction a generalizing off with
  | nil => rw [List.nil_append, withRowIndex, List.nil_append, List.length_nil, Nat.add_zero]
  | cons r rs ih =>
    rw [List.cons_append, withRowIndex, withRowIndex, ih (off + 1), List.cons_append,
      List.length_cons]
    have h : off + 1 + rs.length = off + (rs.length + 1) := by omega
    rw [h]

/-- The `__row_id__` column of an indexed slice is the offset range. -/
theorem withRowIndex_map_fst (off : Nat) (l : List RowV) :
    (withRowIndex off l).map Prod.fst = List.range' off l.length := by
  induction l generalizing off with
  | nil => rfl
  | cons r rs ih =>
    rw [withRowIndex, List.map_cons, List.length_cons, List.range'_succ, ih]

/-- Taking `min n (length l)` elements is the same as taking `n`. -/
theorem take_min_length (l : List RowV) (n : Nat) :
    l.take (min n l.length) = l.take n := by
  rw [List.take_eq_take]
  omega

/-- Projections of the state at the end of a replace-mode refresh
sequence: page 0, loading cleared, page size kept, buffer replaced by
the indexed first page, and the filtered+sorted result unchanged. -/
theorem afterReplaceRefresh_proj (filterF sortF : List RowV → List RowV) (data : List RowV)
    (rc : Bool) (b : SessionState) :
    (afterReplaceRefresh filterF sortF data rc b).loading = false ∧
    (afterReplaceRefresh filterF sortF data rc b).page = 0 ∧
    (afterReplaceRefresh filterF sortF data rc b).pageSize = b.pageSize ∧
    gridResult filterF sortF data (afterReplaceRefresh filterF sortF data rc b) =
      gridResult filterF sortF data b ∧
    (afterReplaceRefresh filterF sortF data rc b).rows =
      withRowIndex 0 ((gridResult filterF sortF data b).take b.pageSize) := by
  have hrows : (afterReplaceRefresh filterF sortF data rc b).rows =
      withRowIndex (0 * b.pageSize)
        (((gridResult filterF sortF data b).drop (0 * b.pageSize)).take b.pageSize) := by
    cases rc <;> rfl
  refine ⟨by cases rc <;> rfl, by cases rc <;> rfl, by cases rc <;> rfl,
    by cases rc <;> rfl, ?_⟩
  rw [hrows, Nat.zero_mul, List.drop_zero]

/-- Projections of the state after a scroll-near-end event that passes
both guards: page advanced, loading cleared, page size kept, the next
page slice appended with row ids from the next offset, and the
filtered+sorted result unchanged. -/
theorem scroll_end_main_proj (filterF sortF : List RowV → List RowV) (data : List RowV)
    (s : SessionState) (h1 : s.loading = false)
    (h2 : ¬ s.rowCount ≤ (s.page + 1) * s.pageSize) :
    (handle_lf_grid_scroll_end filterF sortF data s).1.loading = false ∧
    (handle_lf_grid_scroll_end filterF sortF data s).1.page = s.page + 1 ∧
    (handle_lf_grid_scroll_end filterF sortF data s).1.pageSize = s.pageSize ∧
    gridResult filterF sortF data (handle_lf_grid_scroll_end filterF sortF data s).1 =
      gridResult filterF sortF data s ∧
    (handle_lf_grid_scroll_end filterF sortF data s).1.rows =
      s.rows ++ withRowIndex ((s.page + 1) * s.pageSize)
        (((gridResult filterF sortF data s).drop ((s.page + 1) * s.pageSize)).take
          s.pageSize) := by
  refine ⟨?_, ?_, ?_, ?_, ?_⟩ <;>
    simp only [handle_lf_grid_scroll_end, h1, Bool.false_eq_true, if_false, h2] <;>
    rfl

/-- The scroll handler preserves the row-buffer invariant. -/
theorem bufferInv_scroll (filterF sortF : List RowV → List RowV) (data : List RowV)
    (s : SessionState) (h : BufferInv filterF sortF data s) :
    BufferInv filterF sortF data (handle_lf_grid_scroll_end filterF sortF data s).1 := by
  obtain ⟨hload, hrows, hlen⟩ := h
  by_cases hg : s.rowCount ≤ (s.page + 1) * s.pageSize
  · rw [scroll_end_guards_noop filterF sortF data s (Or.inr hg)]
    exact ⟨hload, hrows, hlen⟩
  · obtain ⟨p1, p2, p3, p4, p5⟩ := scroll_end_main_proj filterF sortF data s hload hg
    set R := gridResult filterF sortF data s with hR
    set ps := s.pageSize with hps
    set off := (s.page + 1) * ps with hoff
    have hlen2 : s.rows.length = min off R.length := hlen
    unfold BufferInv
    rw [p1, p2, p3, p4, p5]
    by_cases hc : off ≤ R.length
    · have hLoff : s.rows.length = off := by omega
      have htk : (R.take off).length = off := by
        rw [List.length_take]
        omega
      have hsplit : R.take (off + ps) = R.take off ++ (R.drop off).take ps :=
        List.take_add R off ps
      have hjoin : s.rows ++ withRowIndex off ((R.drop off).take ps) =
          withRowIndex 0 (R.take (off + ps)) := by
        rw [hsplit, withRowIndex_append, Nat.zero_add, htk, hrows, hLoff]
      have hlen3 : (s.rows ++ withRowIndex off ((R.drop off).take ps)).length =
          min (off + ps) R.length := by
        rw [hjoin, withRowIndex_length, List.length_take]
      have hmul : (s.page + 1 + 1) * ps = off + ps := by
        rw [hoff]
        ring
      refine ⟨rfl, ?_, ?_⟩
      · rw [hlen3, take_min_length]
        exact hjoin
      · rw [hlen3, hmul]
    · have hdrop : R.drop off = [] := List.drop_eq_nil_of_le (by omega)
      have hnil : s.rows ++ withRowIndex off ((R.drop off).take ps) = s.rows := by
        rw [hdrop, List.take_nil, withRowIndex, List.append_nil]
      refine ⟨rfl, ?_, ?_⟩
      · rw [hnil]
        exact hrows
      · rw [hnil]
        have hge : off ≤ (s.page + 1 + 1) * ps := by
          rw [hoff]
          exact Nat.mul_le_mul_right ps (by omega)
        omega

/-- The replace-mode refresh establishes the row-buffer invariant. -/
theorem bufferInv_afterReplaceRefresh (filterF sortF : List RowV → List RowV)
    (data : List RowV) (rc : Bool) (b : SessionState) :
    BufferInv filterF sortF data (afterReplaceRefresh filterF sortF data rc b) := by
  obtain ⟨p1, p2, p3, p4, p5⟩ := afterReplaceRefresh_proj filterF sortF data rc b
  unfold BufferInv
  rw [p1, p2, p3, p4, p5]
  have hlen : (withRowIndex 0 ((gridResult filterF sortF data b).take b.pageSize)).length =
      min b.pageSize (gridResult filterF sortF data b).length := by
    rw [withRowIndex_length, List.length_take]
  refine ⟨rfl, ?_, ?_⟩
  · rw [hlen, take_min_length]
  · rw [hlen, Nat.zero_add, Nat.one_mul]

/-- The invariant holds along the whole append sequence. -/
theorem bufferInv_appendSequence (filterF sortF : List RowV → List RowV)
    (data : List RowV) (rc : Bool) (b : SessionState) (n : Nat) :
    BufferInv filterF sortF data (appendSequenceState filterF sortF data rc b n) := by
  induction n with
  | zero => exact bufferInv_afterReplaceRefresh filterF sortF data rc b
  | succ n ih => exact bufferInv_scroll filterF sortF data _ ih

/-- C9: along one unbroken append sequence — a replace-mode refresh at
page 0 followed by any number of scroll-near-end events — the row
buffer is exactly the indexed prefix of the currently filtered and
sorted result: the j-th buffered row carries `__row_id__ = j`, its
global offset in that result (not its source offset), and the ids
across the whole buffer are strictly increasing and contiguous from
0. -/
theorem append_sequence_row_ids (filterF sortF : List RowV → List RowV)
    (data : List RowV) (rc : Bool) (b : SessionState) (n : Nat) :
    (appendSequenceState filterF sortF data rc b n).rows =
      withRowIndex 0
        ((gridResult filterF sortF data (appendSequenceState filterF sortF data rc b n)).take
          (appendSequenceState filterF sortF data rc b n).rows.length) ∧
    (appendSequenceState filterF sortF data rc b n).rows.map Prod.fst =
      List.range (appendSequenceState filterF sortF data rc b n).rows.length := by
  obtain ⟨-, hrows, hlen⟩ := bufferInv_appendSequence filterF sortF data rc b n
  refine ⟨hrows, ?_⟩
  have hle : (appendSequenceState filterF sortF data rc b n).rows.length ≤
      (gridResult filterF sortF data (appendSequenceState filterF sortF data rc b n)).length := by
    omega
  conv_lhs => rw [hrows]
  rw [withRowIndex_map_fst, List.length_take, List.range_eq_range']
  congr 1
  omega

end ReflexMuiDatagrid
